import Mathlib

/- A shallow embedding of `quip_export.py`.

   Modelling conventions:
   - Python `str` is `String`; filesystem paths are lists of path components
     (`os.path.join base name` becomes `base ++ [name]`, so the embedding is
     independent of the platform separator; log messages render a path with
     `String.intercalate "/"`).
   - Dynamic JSON payloads are records of optional fields covering exactly the
     keys the source reads; payload values are modelled as strings.
   - Side effects (directory creation, file writes, `time.sleep(0.5)`,
     `print`) are recorded in an event trace; raised exceptions are modelled
     with `Except String`, and every `try`/`except Exception` block of the
     source with an explicit handler combinator on the trace monad. -/

-- ## NameSanitizer: `sanitize_filename` (quip_export.py:12-14)

/-- The reserved character class of `re.sub(r'[\\/*?:"<>|]', '', filename)`. -/
def reserved_chars : List Char := ['\\', '/', '*', '?', ':', '"', '<', '>', '|']

/-- `sanitize_filename`: remove every occurrence of a reserved character. -/
def sanitize_filename (filename : String) : String :=
  String.mk (filename.data.filter (fun c => !(reserved_chars.contains c)))

-- ## LinkResolver: `urlparse`, `extract_id_from_link`, `get_domain_from_link`

/-- `str.strip(sep)` for a single strip character: drop it from both ends. -/
def pyStrip (sep : Char) (s : String) : String :=
  String.mk (((s.data.dropWhile (fun c => c == sep)).reverse.dropWhile
    (fun c => c == sep)).reverse)

/-- `str.split(sep)` for a one-character separator.  Python semantics: the
    result is never empty; splitting the empty string yields `[""]`. -/
def pySplit (sep : Char) : List Char → List String
  | [] => [""]
  | c :: cs =>
    if c = sep then "" :: pySplit sep cs
    else
      match pySplit sep cs with
      | s :: rest => String.mk (c :: s.data) :: rest
      | [] => [String.mk [c]]

/-- `str.split(sep, 1)`: the part before the first separator, and — when the
    separator occurs — the part after it. -/
def splitFirst (sep : Char) : List Char → List Char × Option (List Char)
  | [] => ([], none)
  | c :: cs =>
    if c = sep then ([], some cs)
    else
      let r := splitFirst sep cs
      (c :: r.1, r.2)

/-- The scheme characters accepted by `urllib.parse` (letters, digits, `+-.`). -/
def schemeChar (c : Char) : Bool :=
  c.isAlpha || c.isDigit || c == '+' || c == '-' || c == '.'

/-- The components of `urllib.parse.urlparse` used by the source. -/
structure SplitResult where
  scheme : String
  netloc : String
  path : String
  query : String
  fragment : String
deriving DecidableEq, Repr

/-- Model of `urllib.parse.urlparse` (an external collaborator of the source):
    an optional `scheme:` head, a `//netloc` delimited by `/?#`, then the
    fragment split off at the first `#` and the query at the first `?`; the
    rest is the path.  URLs containing whitespace/control characters, bracketed
    IPv6 hosts and `;parameters` (which the source never passes) are outside
    the model. -/
def urlparse (url : String) : SplitResult :=
  let cs := url.data
  let schemeRest : String × List Char :=
    match cs.findIdx? (fun c => c == ':') with
    | some i =>
      if 0 < i ∧ (cs.take i).all schemeChar then
        (String.mk ((cs.take i).map Char.toLower), cs.drop (i + 1))
      else ("", cs)
    | none => ("", cs)
  let netlocRest : String × List Char :=
    match schemeRest.2 with
    | '/' :: '/' :: cs2 =>
      (String.mk (cs2.takeWhile (fun c => !(c == '/' || c == '?' || c == '#'))),
       cs2.dropWhile (fun c => !(c == '/' || c == '?' || c == '#')))
    | rest => ("", rest)
  let fragSplit := splitFirst '#' netlocRest.2
  let querySplit := splitFirst '?' fragSplit.1
  { scheme := schemeRest.1
  , netloc := netlocRest.1
  , path := String.mk querySplit.1
  , query := String.mk (querySplit.2.getD [])
  , fragment := String.mk (fragSplit.2.getD []) }

/-- `extract_id_from_link` (quip_export.py:23-41). -/
def extract_id_from_link (link : String) : Option String :=
  let parsed_url := urlparse link
  let path := pyStrip '/' parsed_url.path
  let parts := pySplit '/' path.data
  match parts.getLast? with
  | none => none
  | some potential_id => some ((pySplit '#' potential_id.data).headD "")

/-- `get_domain_from_link` (quip_export.py:44-47). -/
def get_domain_from_link (link : String) : String :=
  (urlparse link).netloc

/-- The root-id resolution step of `main` (quip_export.py:224-230):
    `extract_id_from_link` followed by the `if not folder_id:` truthiness
    check; `none` models the fatal `sys.exit(1)`. -/
def main_resolve_folder_id (link : String) : Option String :=
  match extract_id_from_link link with
  | none => none
  | some folder_id => if folder_id = "" then none else some folder_id

-- ## Effects: the event trace and the exception-plus-trace monad

/-- One observable side effect of the exporter. -/
inductive Event where
  | mkdir (path : List String)
  | write (path : List String) (content : String)
  | sleep
  | log (msg : String)
deriving DecidableEq, Repr

/-- A computation that records a trace of events and either returns a value or
    raises an exception (modelled by its message).  Effects performed before a
    raise stay in the trace. -/
def M (α : Type) : Type := List Event × Except String α

/-- Return without effects. -/
def M.pure (a : α) : M α := ([], Except.ok a)

/-- Sequencing: an exception short-circuits, traces accumulate. -/
def M.bind (x : M α) (f : α → M β) : M β :=
  match x.2 with
  | Except.error e => (x.1, Except.error e)
  | Except.ok a => (x.1 ++ (f a).1, (f a).2)

/-- Record one event. -/
def M.tell (e : Event) : M Unit := ([e], Except.ok ())

/-- A primitive that may raise (network calls of the source). -/
def M.lift (x : Except String α) : M α := ([], x)

/-- `raise`. -/
def M.throw (e : String) : M α := ([], Except.error e)

/-- `try: x except Exception as e: h e` — events of the failed body stay. -/
def M.tryCatch (x : M α) (h : String → M α) : M α :=
  match x.2 with
  | Except.ok a => (x.1, Except.ok a)
  | Except.error e => (x.1 ++ (h e).1, (h e).2)

/-- Log-message rendering of a path (`os.path.join` with `/`). -/
def pathStr (p : List String) : String := String.intercalate "/" p

/-- `"  " * depth`. -/
def pyRepeat (s : String) (n : Nat) : String := String.join (List.replicate n s)

-- ## The remote client's payloads (the keys the source reads)

/-- The value of a thread payload's `'thread'` key. -/
structure ThreadMeta where
  title : Option String
deriving DecidableEq, Repr

/-- One entry of a thread payload's `'blobs'` list. -/
structure Blob where
  url : Option String
  name : Option String
deriving DecidableEq, Repr

/-- A `client.get_thread` payload. -/
structure ThreadData where
  error : Option String
  thread : Option ThreadMeta
  html : Option String
  blobs : Option (List Blob)
deriving DecidableEq, Repr

/-- The value of a folder payload's `'folder'` key. -/
structure FolderMeta where
  title : Option String
deriving DecidableEq, Repr

/-- One entry of a folder payload's `'children'` list; classified in the
    source by which of the two keys is present. -/
structure Child where
  thread_id : Option String
  folder_id : Option String
deriving DecidableEq, Repr

/-- A `client.get_folder` payload. -/
structure FolderData where
  error : Option String
  folder : Option FolderMeta
  children : Option (List Child)
deriving DecidableEq, Repr

/-- A `requests` response: status code and body. -/
structure Resp where
  status_code : Nat
  content : String
deriving DecidableEq, Repr

/-- The remote side, a black box: the `quip.QuipClient` handle plus the HTTP
    world seen by `requests.get`.  A `.error` result models a raised
    exception. -/
structure Client where
  base_url : String
  access_token : String
  get_thread : String → Except String ThreadData
  get_folder : String → Except String FolderData
  http_get : String → Except String Resp

/-- Python truthiness of an optional string (`None` and `''` are falsy). -/
def pyTruthy : Option String → Bool
  | none => false
  | some s => !s.isEmpty

/-- `thread_data.get('thread', {}).get('title', 'Unknown_Document')`. -/
def thread_title_raw (td : ThreadData) : String :=
  match td.thread with
  | some m => m.title.getD "Unknown_Document"
  | none => "Unknown_Document"

/-- The sanitized document title used for all of a document's paths. -/
def thread_title (td : ThreadData) : String :=
  sanitize_filename (thread_title_raw td)

/-- `folder.get('folder', {}).get('title', 'Unknown_Folder')`, sanitized. -/
def folder_title (fd : FolderData) : String :=
  sanitize_filename (match fd.folder with
    | some m => m.title.getD "Unknown_Folder"
    | none => "Unknown_Folder")

/-- The DOCX export endpoint URL built at quip_export.py:76. -/
def export_url (client : Client) (thread_id : String) : String :=
  client.base_url ++ "/1/threads/" ++ thread_id ++ "/export/docx"

-- ## `download_blob` (quip_export.py:50-60)

/-- `download_blob`: GET the url, `raise_for_status` (HTTP error for a
    4xx/5xx status), write the body; any exception is caught, logged and
    reported as `false`. -/
def download_blob (client : Client) (url : String) (file_path : List String) :
    M Bool :=
  M.tryCatch
    (M.bind (M.lift (client.http_get url)) fun response =>
      if 400 ≤ response.status_code ∧ response.status_code < 600 then
        M.throw ("HTTP Error " ++ toString response.status_code)
      else
        M.bind (M.tell (Event.write file_path response.content)) fun _ =>
        M.pure true)
    (fun e =>
      M.bind (M.tell (Event.log ("Error downloading attachment: " ++ e)))
        fun _ => M.pure false)

-- ## `process_thread` (quip_export.py:63-114)

/-- The `for blob in blobs:` loop of `process_thread` (quip_export.py:104-111):
    `if blob_url and download_blob(...)` skips a blob with a falsy `'url'`
    silently and logs each successful download. -/
def processBlobs (client : Client) (attachments_path : List String) :
    List Blob → M Unit
  | [] => M.pure ()
  | blob :: rest =>
    let blob_name := sanitize_filename (blob.name.getD "Unknown_Attachment")
    let blob_path := attachments_path ++ [blob_name]
    match blob.url with
    | none => processBlobs client attachments_path rest
    | some blob_url =>
      if blob_url.isEmpty then processBlobs client attachments_path rest
      else
        M.bind (download_blob client blob_url blob_path) fun ok =>
        M.bind
          (if ok then
            M.tell (Event.log ("Downloaded attachment: " ++ pathStr blob_path))
          else M.pure ())
          fun _ => processBlobs client attachments_path rest

/-- `process_thread`: fetch the thread payload, skip on an `'error'` key,
    attempt the DOCX export, fall back to the payload's `'html'` markup on a
    non-200 status, then fetch attachments; the whole body is wrapped in
    `try`/`except Exception`. -/
def process_thread (client : Client) (thread_id : String)
    (current_path : List String) : M Unit :=
  M.tryCatch
    (M.bind (M.lift (client.get_thread thread_id)) fun thread_data =>
      match thread_data.error with
      | some err =>
        M.tell (Event.log ("Error accessing document " ++ thread_id ++ ": " ++ err))
      | none =>
        let thread_title := thread_title thread_data
        let docx_path := current_path ++ [thread_title ++ ".docx"]
        M.bind (M.lift (client.http_get (export_url client thread_id)))
          fun response =>
        M.bind
          (if response.status_code = 200 then
            M.bind (M.tell (Event.write docx_path response.content)) fun _ =>
            M.tell (Event.log ("Extracted DOCX: " ++ pathStr docx_path))
          else
            M.bind (M.tell (Event.log ("Failed to download DOCX for " ++
                thread_title ++ ": " ++ toString response.status_code)))
              fun _ =>
            let html_path := current_path ++ [thread_title ++ ".html"]
            match thread_data.html with
            | some content =>
              if content.isEmpty then M.pure ()
              else
                M.bind (M.tell (Event.write html_path content)) fun _ =>
                M.tell (Event.log ("Extracted HTML instead: " ++ pathStr html_path))
            | none => M.pure ())
          fun _ =>
        let blobs := thread_data.blobs.getD []
        if blobs.isEmpty then M.pure ()
        else
          let attachments_path := current_path ++ [thread_title ++ "_attachments"]
          M.bind (M.tell (Event.mkdir attachments_path)) fun _ =>
          processBlobs client attachments_path blobs)
    (fun e =>
      M.tell (Event.log ("Error processing document " ++ thread_id ++ ": " ++ e)))

-- ## `process_folder` (quip_export.py:117-174)

/-- Rendering of `json.dumps(folder, indent=2)[:200]` in the debug print at
    quip_export.py:128; the exact JSON text never influences the traversal and
    is kept abstract. -/
def folderDebugJson (_fd : FolderData) : String := "<json>"

/-- The `for child in children:` loop of `process_folder`
    (quip_export.py:156-169).  `recurse` is the recursive occurrence of
    `process_folder` (at `depth + 1`); the counter is `processed_items`, the
    `time.sleep(0.5)` at the end of every iteration is the throttle. -/
def childLoop (client : Client) (recurse : String → List String → Nat → M Unit)
    (current_path : List String) (depth : Nat) (indent : String)
    (total_items : Nat) : Nat → List Child → M Unit
  | _, [] => M.pure ()
  | processed_items, child :: rest =>
    let pi := processed_items + 1
    M.bind
      (match child.thread_id with
       | some tid =>
         M.bind (M.tell (Event.log (indent ++ "  (" ++ toString pi ++ "/" ++
             toString total_items ++ ") Processing document...")))
           fun _ => process_thread client tid current_path
       | none =>
         match child.folder_id with
         | some fid => recurse fid current_path (depth + 1)
         | none => M.pure ())
      fun _ =>
    M.bind (M.tell Event.sleep) fun _ =>
    childLoop client recurse current_path depth indent total_items pi rest

/-- `process_folder`: fetch the folder payload, skip on an `'error'` key,
    create the folder's directory and dispatch every child, all wrapped in
    `try`/`except Exception`.  The source recurses without bound; `fuel`
    bounds the modelled recursion depth, and running out of fuel models the
    interpreter's `RecursionError` (an exception raised at the call, caught by
    the caller's handler). -/
def process_folder (client : Client) :
    Nat → String → List String → Nat → M Unit
  | 0, _, _, _ => M.throw "maximum recursion depth exceeded"
  | fuel + 1, folder_id, base_path, depth =>
    M.tryCatch
      (let indent := pyRepeat "  " depth
       M.bind (M.lift (client.get_folder folder_id)) fun folder =>
       match folder.error with
       | some err =>
         M.tell (Event.log (indent ++ "Error accessing folder " ++ folder_id ++
           ": " ++ err))
       | none =>
         M.bind (M.tell (Event.log ("DEBUG - Folder structure: " ++
             folderDebugJson folder ++ "..."))) fun _ =>
         let folder_title := folder_title folder
         let current_path := base_path ++ [folder_title]
         M.bind (M.tell (Event.mkdir current_path)) fun _ =>
         M.bind (M.tell (Event.log (indent ++ "Processing folder: " ++
             folder_title))) fun _ =>
         -- `children = folder.get('children', [])` is immediately overwritten
         -- by `children = []` and `if 'children' in folder: children = ...`;
         -- the net effect is a single lookup with default `[]`.
         let children := folder.children.getD []
         let total_items := children.length
         M.bind (M.tell (Event.log ("Found in " ++ folder_title ++ ": (" ++
             toString total_items ++ " items)"))) fun _ =>
         M.bind (childLoop client (process_folder client fuel) current_path
             depth indent total_items 0 children) fun _ =>
         M.tell (Event.log (indent ++ "Completed folder: " ++ folder_title ++
           " (" ++ toString total_items ++ " items)")))
      (fun e =>
        M.tell (Event.log ("Error processing folder " ++ folder_id ++ ": " ++ e)))

-- ## Trace observations

/-- The paths of the file-write events of a trace, in order. -/
def writePaths (tr : List Event) : List (List String) :=
  tr.filterMap (fun e => match e with
    | Event.write p _ => some p
    | _ => none)

/-- The paths of the directory-creation events of a trace, in order. -/
def mkdirPaths (tr : List Event) : List (List String) :=
  tr.filterMap (fun e => match e with
    | Event.mkdir p => some p
    | _ => none)

/-- The path an event touches, if any. -/
def eventPath : Event → Option (List String)
  | Event.mkdir p => some p
  | Event.write p _ => some p
  | _ => none

/-- All paths touched by a trace. -/
def pathsOf (tr : List Event) : List (List String) := tr.filterMap eventPath

/-- The number of throttle sleeps in a trace. -/
def sleepCount (tr : List Event) : Nat :=
  (tr.filter (fun e => match e with
    | Event.sleep => true
    | _ => false)).length

/-- How many times a trace writes the file at `p`. -/
def writesAt (p : List String) (tr : List Event) : Nat := (writePaths tr).count p

/-- How many times a trace creates the directory at `p`. -/
def mkdirsAt (p : List String) (tr : List Event) : Nat := (mkdirPaths tr).count p

/-- The folder ids of the children dispatched to the recursive call (a child
    with a `'thread_id'` key is dispatched as a document first). -/
def folder_child_ids (cs : List Child) : List String :=
  cs.filterMap (fun c => match c.thread_id with
    | some _ => none
    | none => c.folder_id)

-- ## The filesystem state and the effect of a trace on it

/-- The filesystem: file contents by path, and which directories exist. -/
structure FS where
  files : List String → Option String
  dirs : List String → Bool

/-- The effect of one event: `open(path, 'w'/'wb')` overwrites, and
    `create_directory_if_not_exists` (quip_export.py:17-20) makes directory
    creation a no-op when the directory already exists. -/
def applyEvent (fs : FS) : Event → FS
  | Event.write p c => { fs with files := fun q => if q = p then some c else fs.files q }
  | Event.mkdir p => { fs with dirs := fun q => if q = p then true else fs.dirs q }
  | _ => fs

/-- Replay a whole trace against a filesystem. -/
def applyTrace (fs : FS) (tr : List Event) : FS := tr.foldl applyEvent fs

/-- The content of the last write of a trace to `q`, if any. -/
def lastWrite : List Event → List String → Option String
  | [], _ => none
  | e :: tr, q =>
    match lastWrite tr q with
    | some c => some c
    | none =>
      match e with
      | Event.write p c => if q = p then some c else none
      | _ => none

/-- Whether a trace creates the directory `q`. -/
def mkdirHit : List Event → List String → Bool
  | [], _ => false
  | e :: tr, q =>
    mkdirHit tr q ||
      (match e with
       | Event.mkdir p => if q = p then true else false
       | _ => false)

-- ## Concrete client behaviors used to instantiate the theorems

/-- A thread payload carrying an `'error'` key. -/
def errThread : ThreadData :=
  { error := some "forbidden", thread := none, html := none, blobs := none }

/-- A healthy thread payload with fallback markup and two blobs, one of which
    has no `'url'` key. -/
def okThread : ThreadData :=
  { error := none
  , thread := some { title := some "My: Doc" }
  , html := some "<html>hi</html>"
  , blobs := some [ { url := some "https://blob/1", name := some "img.png" }
                  , { url := none, name := some "orphan" } ] }

/-- A folder payload carrying an `'error'` key. -/
def errFolder : FolderData :=
  { error := some "denied", folder := none, children := none }

/-- A client whose thread `"TERR"` and folder `"FERR"` answer with error
    payloads, whose other threads are `okThread`, and whose export endpoint
    always answers 404 while blob downloads succeed. -/
def demo_client : Client :=
  { base_url := "https://platform.quip.com"
  , access_token := "tok"
  , get_thread := fun tid =>
      if tid = "TERR" then Except.ok errThread else Except.ok okThread
  , get_folder := fun fid =>
      if fid = "FERR" then Except.ok errFolder
      else Except.ok { error := none, folder := some { title := some "Folder" }
                     , children := some [] }
  , http_get := fun url =>
      if url = "https://blob/1" then Except.ok { status_code := 200, content := "bytes" }
      else Except.ok { status_code := 404, content := "" } }

/-- A thread payload that is fetched successfully but has neither a working
    DOCX export (the client below answers 500) nor an `'html'` key. -/
def bareThread : ThreadData :=
  { error := none, thread := some { title := some "Doc" }, html := none, blobs := none }

/-- A client whose document fetch succeeds while the export endpoint answers
    500 and the payload carries no fallback markup. -/
def c4_client : Client :=
  { base_url := "https://platform.quip.com"
  , access_token := "tok"
  , get_thread := fun _ => Except.ok bareThread
  , get_folder := fun _ => Except.ok errFolder
  , http_get := fun _ => Except.ok { status_code := 500, content := "" } }

/-- A client for the attachment claims: document fetch succeeds with two blobs
    (one url-less), and every HTTP GET — the export and the blob download —
    fails with 500. -/
def c10_client : Client :=
  { base_url := "https://platform.quip.com"
  , access_token := "tok"
  , get_thread := fun _ => Except.ok okThread
  , get_folder := fun _ => Except.ok errFolder
  , http_get := fun _ => Except.ok { status_code := 500, content := "" } }

-- ## Basic lemmas about the string layer

theorem pySplit_ne_nil (sep : Char) (cs : List Char) : pySplit sep cs ≠ [] := by
  induction cs with
  | nil => simp [pySplit]
  | cons c cs ih =>
    unfold pySplit
    by_cases h : c = sep
    · simp [h]
    · rw [if_neg h]
      cases hs : pySplit sep cs with
      | nil => exact absurd hs ih
      | cons a as => simp

theorem string_append_right_inj (s a b : String) : s ++ a = s ++ b ↔ a = b := by
  constructor
  · intro h
    have hd := congrArg String.data h
    simp only [String.data_append] at hd
    exact congrArg String.mk (List.append_cancel_left hd)
  · intro h; rw [h]

-- ## Claim C7: sanitize removes exactly the reserved characters

/-- C7: for every title, `sanitize_filename` removes every occurrence of the
    reserved characters `\ / * ? : " < > |`, so its output contains none of
    them; and on a title containing none of them it is the identity. -/
theorem c7_sanitize_reserved (title : String) :
    (∀ c ∈ (sanitize_filename title).data, c ∉ reserved_chars) ∧
    ((∀ c ∈ title.data, c ∉ reserved_chars) → sanitize_filename title = title) := by
  constructor
  · intro c hc
    simp only [sanitize_filename, List.mem_filter, Bool.not_eq_true',
      List.elem_eq_mem, decide_eq_false_iff_not] at hc
    exact hc.2
  · intro h
    have hfix : title.data.filter (fun c => !(reserved_chars.contains c)) = title.data := by
      apply List.filter_eq_self.mpr
      intro c hc
      simp only [Bool.not_eq_true', List.elem_eq_mem, decide_eq_false_iff_not]
      exact h c hc
    unfold sanitize_filename
    rw [hfix]

/-- Instantiation of `c7_sanitize_reserved` at concrete titles. -/
theorem c7_sanitize_reserved_witness : sanitize_filename "My Report" = "My Report" :=
  (c7_sanitize_reserved "My Report").2 (by decide)

-- ## Claim C9: `extract_id_from_link` never returns `None`

/-- C9: for every link, `extract_id_from_link` never returns `none` (its
    empty-parts guard is unreachable because Python's `split` never yields an
    empty list); a link whose URL path is empty yields `some ""`; and `main`
    treats the resolution as fatal exactly when the returned id is the falsy
    empty string. -/
theorem c9_extract_total (link : String) :
    (extract_id_from_link link).isSome = true ∧
    ((urlparse link).path = "" → extract_id_from_link link = some "") ∧
    (main_resolve_folder_id link = none ↔ extract_id_from_link link = some "") := by
  have hsome : (extract_id_from_link link).isSome = true := by
    unfold extract_id_from_link
    cases hsplit : pySplit '/' (pyStrip '/' (urlparse link).path).data with
    | nil => exact absurd hsplit (pySplit_ne_nil _ _)
    | cons a as =>
      cases hg : (a :: as).getLast? with
      | none => simp at hg
      | some b => simp [hsplit, hg]
  refine ⟨hsome, ?_, ?_⟩
  · intro hpath
    simp only [extract_id_from_link, hpath]
    rfl
  · cases hx : extract_id_from_link link with
    | none => rw [hx] at hsome; simp at hsome
    | some s =>
      simp only [main_resolve_folder_id, hx]
      by_cases hs : s = "" <;> simp [hs]

/-- Instantiation of `c9_extract_total` at a pathless link. -/
theorem c9_extract_total_witness :
    (urlparse "https://quip.com").path = "" ∧
    extract_id_from_link "https://quip.com" = some "" :=
  ⟨by decide, (c9_extract_total "https://quip.com").2.1 (by decide)⟩

-- ## Claim C6: link resolution

/-- C6: for the link `https://host/path/ABC123#section` the resolver yields
    entity id `ABC123` (last path segment, fragment stripped) and domain
    `host`; and for every link whose URL path has no segments the resolution
    step of `main` fails, which is fatal for the whole session
    (`sys.exit(1)`). -/
theorem c6_link_resolution :
    extract_id_from_link "https://host/path/ABC123#section" = some "ABC123" ∧
    get_domain_from_link "https://host/path/ABC123#section" = "host" ∧
    (∀ link, pyStrip '/' (urlparse link).path = "" →
      main_resolve_folder_id link = none) := by
  refine ⟨by decide, by decide, ?_⟩
  intro link h
  simp only [main_resolve_folder_id, extract_id_from_link, h]
  rfl

/-- Instantiation of `c6_link_resolution` at a link with an all-slash path. -/
theorem c6_link_resolution_witness :
    pyStrip '/' (urlparse "https://host///").path = "" ∧
    main_resolve_folder_id "https://host///" = none :=
  ⟨by decide, c6_link_resolution.2.2 "https://host///" (by decide)⟩

-- ## Computation lemmas for the trace monad

@[simp] theorem M.lift_ok_bind (a : α) (f : α → M β) :
    M.bind (M.lift (Except.ok a)) f = f a := by
  simp [M.bind, M.lift]

@[simp] theorem M.lift_error_bind (e : String) (f : α → M β) :
    M.bind (M.lift (Except.error e)) f = ([], Except.error e) := by
  simp [M.bind, M.lift]

@[simp] theorem M.tell_bind (e : Event) (f : Unit → M β) :
    M.bind (M.tell e) f = (e :: (f ()).1, (f ()).2) := by
  simp [M.bind, M.tell]

@[simp] theorem M.pure_bind (a : α) (f : α → M β) :
    M.bind (M.pure a) f = f a := by
  simp [M.bind, M.pure]

theorem M.bind_of_ok (x : M α) (f : α → M β) (a : α) (hx : x.2 = Except.ok a) :
    M.bind x f = (x.1 ++ (f a).1, (f a).2) := by
  unfold M.bind
  rw [hx]

theorem M.bind_of_error (x : M α) (f : α → M β) (e : String)
    (hx : x.2 = Except.error e) : M.bind x f = (x.1, Except.error e) := by
  unfold M.bind
  rw [hx]

theorem M.bind_unit_fst (x : M Unit) (f : Unit → M β) :
    (M.bind x f).1 = x.1 ++ (match x.2 with
      | Except.ok _ => (f ()).1
      | Except.error _ => []) := by
  unfold M.bind
  cases hx : x.2 with
  | ok a => cases a; simp [hx]
  | error e => simp [hx]

theorem M.tryCatch_of_ok (x : M α) (h : String → M α) (a : α)
    (hx : x.2 = Except.ok a) : M.tryCatch x h = (x.1, Except.ok a) := by
  unfold M.tryCatch
  rw [hx]

theorem M.tryCatch_of_error (x : M α) (h : String → M α) (e : String)
    (hx : x.2 = Except.error e) :
    M.tryCatch x h = (x.1 ++ (h e).1, (h e).2) := by
  unfold M.tryCatch
  rw [hx]

theorem M.tryCatch_snd_ok (x : M Unit) (h : String → M Unit)
    (hh : ∀ e, (h e).2 = Except.ok ()) :
    (M.tryCatch x h).2 = Except.ok () := by
  cases hx : x.2 with
  | ok a => cases a; rw [M.tryCatch_of_ok x h () hx]
  | error e => rw [M.tryCatch_of_error x h e hx]; exact hh e

-- ## Computation lemmas for the trace observations

@[simp] theorem writePaths_nil : writePaths [] = [] := rfl
@[simp] theorem writePaths_write (p c tr) :
    writePaths (Event.write p c :: tr) = p :: writePaths tr := rfl
@[simp] theorem writePaths_mkdir (p tr) :
    writePaths (Event.mkdir p :: tr) = writePaths tr := rfl
@[simp] theorem writePaths_log (m tr) :
    writePaths (Event.log m :: tr) = writePaths tr := rfl
@[simp] theorem writePaths_sleep (tr) :
    writePaths (Event.sleep :: tr) = writePaths tr := rfl
@[simp] theorem writePaths_append (a b : List Event) :
    writePaths (a ++ b) = writePaths a ++ writePaths b :=
  List.filterMap_append a b _

@[simp] theorem mkdirPaths_nil : mkdirPaths [] = [] := rfl
@[simp] theorem mkdirPaths_write (p c tr) :
    mkdirPaths (Event.write p c :: tr) = mkdirPaths tr := rfl
@[simp] theorem mkdirPaths_mkdir (p tr) :
    mkdirPaths (Event.mkdir p :: tr) = p :: mkdirPaths tr := rfl
@[simp] theorem mkdirPaths_log (m tr) :
    mkdirPaths (Event.log m :: tr) = mkdirPaths tr := rfl
@[simp] theorem mkdirPaths_sleep (tr) :
    mkdirPaths (Event.sleep :: tr) = mkdirPaths tr := rfl
@[simp] theorem mkdirPaths_append (a b : List Event) :
    mkdirPaths (a ++ b) = mkdirPaths a ++ mkdirPaths b :=
  List.filterMap_append a b _

@[simp] theorem pathsOf_nil : pathsOf [] = [] := rfl
@[simp] theorem pathsOf_write (p c tr) :
    pathsOf (Event.write p c :: tr) = p :: pathsOf tr := rfl
@[simp] theorem pathsOf_mkdir (p tr) :
    pathsOf (Event.mkdir p :: tr) = p :: pathsOf tr := rfl
@[simp] theorem pathsOf_log (m tr) : pathsOf (Event.log m :: tr) = pathsOf tr := rfl
@[simp] theorem pathsOf_sleep (tr) : pathsOf (Event.sleep :: tr) = pathsOf tr := rfl
@[simp] theorem pathsOf_append (a b : List Event) :
    pathsOf (a ++ b) = pathsOf a ++ pathsOf b :=
  List.filterMap_append a b _

@[simp] theorem sleepCount_nil : sleepCount [] = 0 := rfl
@[simp] theorem sleepCount_write (p c tr) :
    sleepCount (Event.write p c :: tr) = sleepCount tr := rfl
@[simp] theorem sleepCount_mkdir (p tr) :
    sleepCount (Event.mkdir p :: tr) = sleepCount tr := rfl
@[simp] theorem sleepCount_log (m tr) :
    sleepCount (Event.log m :: tr) = sleepCount tr := rfl
@[simp] theorem sleepCount_sleep (tr) :
    sleepCount (Event.sleep :: tr) = sleepCount tr + 1 := rfl
@[simp] theorem sleepCount_append (a b : List Event) :
    sleepCount (a ++ b) = sleepCount a + sleepCount b := by
  simp [sleepCount, List.filter_append]

@[simp] theorem M.pair_ok_bind (t : List Event) (a : α) (f : α → M β) :
    M.bind ((t, Except.ok a) : M α) f = (t ++ (f a).1, (f a).2) := rfl

@[simp] theorem M.pair_error_bind (t : List Event) (e : String) (f : α → M β) :
    M.bind ((t, Except.error e) : M α) f = (t, Except.error e) := rfl

@[simp] theorem M.tryCatch_pair_ok (t : List Event) (a : α) (h : String → M α) :
    M.tryCatch ((t, Except.ok a) : M α) h = (t, Except.ok a) := rfl

@[simp] theorem M.tryCatch_pair_error (t : List Event) (e : String) (h : String → M α) :
    M.tryCatch ((t, Except.error e) : M α) h = (t ++ (h e).1, (h e).2) := rfl

theorem M.eta_ok (x : M α) (a : α) (hx : x.2 = Except.ok a) :
    x = (x.1, Except.ok a) := by
  rw [← hx]
  exact Prod.mk.eta.symm

-- ## `process_thread` and `process_folder` never raise to their caller

theorem process_thread_snd (client : Client) (tid : String) (cur : List String) :
    (process_thread client tid cur).2 = Except.ok () := by
  unfold process_thread
  apply M.tryCatch_snd_ok
  intro e
  rfl

theorem process_folder_snd (client : Client) (fuel : Nat) (fid : String)
    (base : List String) (depth : Nat) :
    (process_folder client (fuel + 1) fid base depth).2 = Except.ok () := by
  simp only [process_folder]
  apply M.tryCatch_snd_ok
  intro e
  rfl

-- ## The behavior of `download_blob`

theorem download_blob_spec (client : Client) (url : String) (p : List String) :
    (∃ resp, client.http_get url = Except.ok resp ∧
      ¬(400 ≤ resp.status_code ∧ resp.status_code < 600) ∧
      download_blob client url p = ([Event.write p resp.content], Except.ok true)) ∨
    (∃ msg, download_blob client url p = ([Event.log msg], Except.ok false)) := by
  unfold download_blob
  cases hg : client.http_get url with
  | error e =>
    right
    exact ⟨"Error downloading attachment: " ++ e, by simp [hg, M.pure]⟩
  | ok resp =>
    by_cases hs : 400 ≤ resp.status_code ∧ resp.status_code < 600
    · right
      refine ⟨"Error downloading attachment: " ++ ("HTTP Error " ++
        toString resp.status_code), ?_⟩
      simp [hg, hs, M.throw, M.pure]
    · left
      exact ⟨resp, rfl, hs, by simp [hg, hs, M.pure]⟩

-- ## The behavior of the blob loop

theorem processBlobs_spec (client : Client) (ap : List String) (bs : List Blob) :
    (processBlobs client ap bs).2 = Except.ok () ∧
    mkdirPaths (processBlobs client ap bs).1 = [] ∧
    sleepCount (processBlobs client ap bs).1 = 0 ∧
    ∀ p ∈ writePaths (processBlobs client ap bs).1, p.length = ap.length + 1 := by
  induction bs with
  | nil => simp [processBlobs, M.pure]
  | cons blob rest ih =>
    unfold processBlobs
    cases hu : blob.url with
    | none => simpa using ih
    | some u =>
      cases he : u.isEmpty with
      | true => simpa [he] using ih
      | false =>
        simp only [he, Bool.false_eq_true, if_false]
        rcases download_blob_spec client u
            (ap ++ [sanitize_filename (blob.name.getD "Unknown_Attachment")]) with
          ⟨resp, _, _, hdb⟩ | ⟨msg, hdb⟩
        · rw [hdb]
          refine ⟨?_, ?_, ?_, ?_⟩
          · simpa [M.pure] using ih.1
          · simpa [M.pure] using ih.2.1
          · simpa [M.pure] using ih.2.2.1
          · intro q hq
            simp [M.pure] at hq
            rcases hq with rfl | hq
            · simp
            · exact ih.2.2.2 q hq
        · rw [hdb]
          refine ⟨?_, ?_, ?_, ?_⟩
          · simpa [M.pure] using ih.1
          · simpa [M.pure] using ih.2.1
          · simpa [M.pure] using ih.2.2.1
          · intro q hq
            simp [M.pure] at hq
            exact ih.2.2.2 q hq

-- ## The full behavior of `process_thread` on a fetch without raised errors

theorem process_thread_spec (client : Client) (tid : String) (cur : List String)
    (td : ThreadData) (resp : Resp)
    (ht : client.get_thread tid = Except.ok td)
    (he : td.error = none)
    (hr : client.http_get (export_url client tid) = Except.ok resp) :
    process_thread client tid cur =
      ((if resp.status_code = 200 then
          [Event.write (cur ++ [thread_title td ++ ".docx"]) resp.content,
           Event.log ("Extracted DOCX: " ++ pathStr (cur ++ [thread_title td ++ ".docx"]))]
        else
          Event.log ("Failed to download DOCX for " ++ thread_title td ++ ": " ++
              toString resp.status_code) ::
            (match td.html with
             | some content =>
               if content.isEmpty then []
               else
                 [Event.write (cur ++ [thread_title td ++ ".html"]) content,
                  Event.log ("Extracted HTML instead: " ++
                    pathStr (cur ++ [thread_title td ++ ".html"]))]
             | none => [])) ++
        (if (td.blobs.getD []).isEmpty then []
         else
           Event.mkdir (cur ++ [thread_title td ++ "_attachments"]) ::
             (processBlobs client (cur ++ [thread_title td ++ "_attachments"])
               (td.blobs.getD [])).1),
       Except.ok ()) := by
  unfold process_thread
  simp only [ht, he, hr, M.lift_ok_bind]
  by_cases h200 : resp.status_code = 200
  · cases hbl : td.blobs.getD [] with
    | nil => simp [h200, M.pure, M.tell, M.bind, M.tryCatch]
    | cons b bs =>
      have hpb := (processBlobs_spec client
        (cur ++ [thread_title td ++ "_attachments"]) (b :: bs)).1
      rcases hgen : processBlobs client
          (cur ++ [thread_title td ++ "_attachments"]) (b :: bs) with ⟨pbt, pbr⟩
      rw [hgen] at hpb
      simp only at hpb
      subst hpb
      simp [h200, M.pure, M.tell, M.bind, M.tryCatch]
  · cases hh : td.html with
    | none =>
      cases hbl : td.blobs.getD [] with
      | nil => simp [h200, M.pure, M.tell, M.bind, M.tryCatch]
      | cons b bs =>
        have hpb := (processBlobs_spec client
          (cur ++ [thread_title td ++ "_attachments"]) (b :: bs)).1
        rcases hgen : processBlobs client
            (cur ++ [thread_title td ++ "_attachments"]) (b :: bs) with ⟨pbt, pbr⟩
        rw [hgen] at hpb
        simp only at hpb
        subst hpb
        simp [h200, M.pure, M.tell, M.bind, M.tryCatch]
    | some content =>
      cases hce : content.isEmpty with
      | true =>
        cases hbl : td.blobs.getD [] with
        | nil => simp [h200, hce, M.pure, M.tell, M.bind, M.tryCatch]
        | cons b bs =>
          have hpb := (processBlobs_spec client
            (cur ++ [thread_title td ++ "_attachments"]) (b :: bs)).1
          rcases hgen : processBlobs client
              (cur ++ [thread_title td ++ "_attachments"]) (b :: bs) with ⟨pbt, pbr⟩
          rw [hgen] at hpb
          simp only at hpb
          subst hpb
          simp [h200, hce, M.pure, M.tell, M.bind, M.tryCatch]
      | false =>
        cases hbl : td.blobs.getD [] with
        | nil => simp [h200, hce, M.pure, M.tell, M.bind, M.tryCatch]
        | cons b bs =>
          have hpb := (processBlobs_spec client
            (cur ++ [thread_title td ++ "_attachments"]) (b :: bs)).1
          rcases hgen : processBlobs client
              (cur ++ [thread_title td ++ "_attachments"]) (b :: bs) with ⟨pbt, pbr⟩
          rw [hgen] at hpb
          simp only at hpb
          subst hpb
          simp [h200, hce, M.pure, M.tell, M.bind, M.tryCatch]

-- ## Claim C1: document export isolates every failure

/-- C1: for every client behavior and every document id, `process_thread`
    returns normally (`Except.ok`) — no exception reaches its caller; when the
    fetched metadata carries an `'error'` key it logs and returns with no
    write and no directory creation; and the enclosing folder loop then
    proceeds to the remaining sibling children. -/
theorem c1_process_thread_isolated (client : Client) (tid : String)
    (cur : List String) :
    (process_thread client tid cur).2 = Except.ok () ∧
    (∀ td err, client.get_thread tid = Except.ok td → td.error = some err →
      process_thread client tid cur =
        ([Event.log ("Error accessing document " ++ tid ++ ": " ++ err)],
         Except.ok ())) ∧
    (∀ recurse depth indent total i child rest, child.thread_id = some tid →
      childLoop client recurse cur depth indent total i (child :: rest) =
        (Event.log (indent ++ "  (" ++ toString (i + 1) ++ "/" ++ toString total ++
            ") Processing document...") ::
          (process_thread client tid cur).1 ++ Event.sleep ::
            (childLoop client recurse cur depth indent total (i + 1) rest).1,
         (childLoop client recurse cur depth indent total (i + 1) rest).2)) := by
  refine ⟨process_thread_snd client tid cur, ?_, ?_⟩
  · intro td err ht he
    unfold process_thread
    simp [ht, he, M.tell]
  · intro recurse depth indent total i child rest hc
    rcases hpt : process_thread client tid cur with ⟨ptt, ptr⟩
    have hsnd := process_thread_snd client tid cur
    rw [hpt] at hsnd
    simp only at hsnd
    subst hsnd
    conv_lhs => rw [childLoop]
    simp [hc, hpt]

/-- Instantiation of `c1_process_thread_isolated`: a document whose payload
    carries an `'error'` key is skipped with a single log line. -/
theorem c1_process_thread_isolated_witness :
    process_thread demo_client "TERR" ["out"] =
      ([Event.log ("Error accessing document " ++ "TERR" ++ ": " ++ "forbidden")],
       Except.ok ()) :=
  (c1_process_thread_isolated demo_client "TERR" ["out"]).2.1 errThread
    "forbidden" rfl rfl

-- ## Claim C2: a folder whose fetch reports an error is skipped

/-- C2: when a folder's metadata fetch returns a payload with an `'error'`
    key, `process_folder` produces exactly one log line — zero file writes and
    zero directory creations — and returns normally; dispatching such a folder
    as a child leaves the loop over its siblings to continue unaffected. -/
theorem c2_folder_error_skipped (client : Client) (fuel : Nat) (fid : String)
    (fd : FolderData) (err : String)
    (hf : client.get_folder fid = Except.ok fd) (he : fd.error = some err) :
    (∀ base depth, process_folder client (fuel + 1) fid base depth =
      ([Event.log (pyRepeat "  " depth ++ "Error accessing folder " ++ fid ++
          ": " ++ err)], Except.ok ())) ∧
    (∀ base depth,
      writePaths (process_folder client (fuel + 1) fid base depth).1 = [] ∧
      mkdirPaths (process_folder client (fuel + 1) fid base depth).1 = []) ∧
    (∀ cur d indent total i child rest,
      child.thread_id = none → child.folder_id = some fid →
      childLoop client (process_folder client (fuel + 1)) cur d indent total i
          (child :: rest) =
        ((process_folder client (fuel + 1) fid cur (d + 1)).1 ++ Event.sleep ::
            (childLoop client (process_folder client (fuel + 1)) cur d indent
              total (i + 1) rest).1,
         (childLoop client (process_folder client (fuel + 1)) cur d indent total
           (i + 1) rest).2)) := by
  have hskip : ∀ base depth, process_folder client (fuel + 1) fid base depth =
      ([Event.log (pyRepeat "  " depth ++ "Error accessing folder " ++ fid ++
          ": " ++ err)], Except.ok ()) := by
    intro base depth
    simp only [process_folder]
    simp [hf, he, M.tell]
  refine ⟨hskip, ?_, ?_⟩
  · intro base depth
    rw [hskip base depth]
    constructor <;> rfl
  · intro cur d indent total i child rest hct hcf
    conv_lhs => rw [childLoop]
    simp [hct, hcf, hskip cur (d + 1)]

/-- Instantiation of `c2_folder_error_skipped`: the error folder of
    `demo_client` yields one log line and nothing on disk. -/
theorem c2_folder_error_skipped_witness :
    process_folder demo_client 1 "FERR" ["out"] 0 =
      ([Event.log (pyRepeat "  " 0 ++ "Error accessing folder " ++ "FERR" ++
          ": " ++ "denied")], Except.ok ()) :=
  (c2_folder_error_skipped demo_client 0 "FERR" errFolder "denied" rfl rfl).1
    ["out"] 0

-- ## Path-disjointness helpers

theorem path_last_ne (cur : List String) (a b : String) (h : a ≠ b) :
    cur ++ [a] ≠ cur ++ [b] := by
  intro hq
  exact h (by simpa using List.append_cancel_left hq)

theorem title_ext_ne (t a b : String) (h : a ≠ b) : t ++ a ≠ t ++ b :=
  fun hq => h ((string_append_right_inj t a b).mp hq)

theorem count_zero_of_lengths (p : List String) (l : List (List String)) (n : Nat)
    (hl : ∀ q ∈ l, q.length = n) (hp : p.length ≠ n) : l.count p = 0 := by
  apply List.count_eq_zero.mpr
  intro hm
  exact hp (hl p hm)

-- ## Claim C3: DOCX failure with fallback markup writes exactly the HTML file

/-- C3: when the DOCX export request answers a non-200 status and the fetched
    metadata carries (non-empty) fallback markup under `'html'`, the document
    export writes the `.html` file exactly once and the `.docx` file not at
    all. -/
theorem c3_fallback_html (client : Client) (tid : String) (cur : List String)
    (td : ThreadData) (resp : Resp) (content : String)
    (ht : client.get_thread tid = Except.ok td) (he : td.error = none)
    (hr : client.http_get (export_url client tid) = Except.ok resp)
    (hs : resp.status_code ≠ 200)
    (hh : td.html = some content) (hc : content ≠ "") :
    writesAt (cur ++ [thread_title td ++ ".docx"])
      (process_thread client tid cur).1 = 0 ∧
    writesAt (cur ++ [thread_title td ++ ".html"])
      (process_thread client tid cur).1 = 1 := by
  have hce : content.isEmpty = false := by
    cases hb : content.isEmpty with
    | false => rfl
    | true => exact absurd ((String.isEmpty_iff content).mp hb) hc
  have htr : (process_thread client tid cur).1 =
      Event.log ("Failed to download DOCX for " ++ thread_title td ++ ": " ++
          toString resp.status_code) ::
      Event.write (cur ++ [thread_title td ++ ".html"]) content ::
      Event.log ("Extracted HTML instead: " ++
          pathStr (cur ++ [thread_title td ++ ".html"])) ::
      (if (td.blobs.getD []).isEmpty then []
       else Event.mkdir (cur ++ [thread_title td ++ "_attachments"]) ::
         (processBlobs client (cur ++ [thread_title td ++ "_attachments"])
           (td.blobs.getD [])).1) := by
    rw [process_thread_spec client tid cur td resp ht he hr]
    simp [hs, hh, hce]
  have hblob : ∀ q ∈ writePaths (if (td.blobs.getD []).isEmpty then []
      else Event.mkdir (cur ++ [thread_title td ++ "_attachments"]) ::
        (processBlobs client (cur ++ [thread_title td ++ "_attachments"])
          (td.blobs.getD [])).1),
      q.length = cur.length + 2 := by
    cases hbe : (td.blobs.getD []).isEmpty with
    | true => simp [hbe]
    | false =>
      simp only [hbe, Bool.false_eq_true, if_false, writePaths_mkdir]
      intro q hq
      have := (processBlobs_spec client
        (cur ++ [thread_title td ++ "_attachments"]) (td.blobs.getD [])).2.2.2 q hq
      simpa using this
  have hne : (cur ++ [thread_title td ++ ".html"]) ≠
      (cur ++ [thread_title td ++ ".docx"]) :=
    path_last_ne cur _ _ (title_ext_ne _ _ _ (by decide))
  constructor
  · unfold writesAt
    rw [htr]
    simp only [writePaths_log, writePaths_write]
    rw [List.count_cons]
    rw [count_zero_of_lengths _ _ (cur.length + 2) hblob (by simp)]
    simp [hne]
  · unfold writesAt
    rw [htr]
    simp only [writePaths_log, writePaths_write]
    rw [List.count_cons]
    rw [count_zero_of_lengths _ _ (cur.length + 2) hblob (by simp)]
    simp

/-- Instantiation of `c3_fallback_html` at `demo_client`, whose export
    endpoint answers 404 while the payload carries `'html'` markup. -/
theorem c3_fallback_html_witness :
    writesAt (["out"] ++ [thread_title okThread ++ ".docx"])
      (process_thread demo_client "T1" ["out"]).1 = 0 ∧
    writesAt (["out"] ++ [thread_title okThread ++ ".html"])
      (process_thread demo_client "T1" ["out"]).1 = 1 :=
  c3_fallback_html demo_client "T1" ["out"] okThread
    { status_code := 404, content := "" } "<html>hi</html>" rfl rfl rfl
    (by decide) rfl (by decide)

-- ## Claim C4, failing part: a fetched document can yield zero export files

/-- C4 fails as stated: `c4_client` fetches document `"T1"` successfully (no
    `'error'` key), yet processing it writes no file at all — the DOCX export
    answers 500 and the payload has no `'html'` fallback — so a successfully
    fetched document node can produce zero export files instead of exactly
    one. -/
theorem c4_counterexample :
    c4_client.get_thread "T1" = Except.ok bareThread ∧
    bareThread.error = none ∧
    writePaths (process_thread c4_client "T1" ["out"]).1 = [] ∧
    mkdirPaths (process_thread c4_client "T1" ["out"]).1 = [] := by
  refine ⟨rfl, rfl, ?_, ?_⟩ <;> rfl

-- ## Which trace events carry paths

theorem writePaths_subset_pathsOf (tr : List Event) :
    ∀ p ∈ writePaths tr, p ∈ pathsOf tr := by
  induction tr with
  | nil => simp
  | cons e tr ih =>
    intro p hp
    cases e <;> simp_all <;> tauto

theorem mkdirPaths_subset_pathsOf (tr : List Event) :
    ∀ p ∈ mkdirPaths tr, p ∈ pathsOf tr := by
  induction tr with
  | nil => simp
  | cons e tr ih =>
    intro p hp
    cases e <;> simp_all <;> tauto

theorem pathsOf_subset (tr : List Event) :
    ∀ p ∈ pathsOf tr, p ∈ writePaths tr ∨ p ∈ mkdirPaths tr := by
  induction tr with
  | nil => simp
  | cons e tr ih =>
    intro p hp
    cases e with
    | mkdir q =>
      simp only [pathsOf_mkdir, List.mem_cons] at hp
      rcases hp with rfl | hp
      · right; simp
      · rcases ih p hp with h | h
        · left; simpa using h
        · right; simp [h]
    | write q c =>
      simp only [pathsOf_write, List.mem_cons] at hp
      rcases hp with rfl | hp
      · left; simp
      · rcases ih p hp with h | h
        · left; simp [h]
        · right; simpa using h
    | sleep =>
      simp only [pathsOf_sleep] at hp
      rcases ih p hp with h | h
      · left; simpa using h
      · right; simpa using h
    | log m =>
      simp only [pathsOf_log] at hp
      rcases ih p hp with h | h
      · left; simpa using h
      · right; simpa using h

-- ## Every path touched by a document export lies under its target directory

theorem process_thread_paths (client : Client) (tid : String) (cur : List String) :
    ∀ p ∈ pathsOf (process_thread client tid cur).1, cur.length < p.length := by
  cases ht : client.get_thread tid with
  | error e =>
    unfold process_thread
    simp [ht, M.tell]
  | ok td =>
    cases he : td.error with
    | some err =>
      unfold process_thread
      simp [ht, he, M.tell]
    | none =>
      cases hr : client.http_get (export_url client tid) with
      | error e =>
        unfold process_thread
        simp [ht, he, hr, M.tell]
      | ok resp =>
        rw [process_thread_spec client tid cur td resp ht he hr]
        intro p hp
        simp only [pathsOf_append] at hp
        rcases List.mem_append.mp hp with hA | hB
        · by_cases h200 : resp.status_code = 200
          · simp [h200] at hA
            subst hA
            simp
          · simp only [h200, if_false] at hA
            cases hh : td.html with
            | none => simp [hh] at hA
            | some content =>
              cases hce : content.isEmpty with
              | true => simp [hh, hce] at hA
              | false =>
                simp [hh, hce] at hA
                subst hA
                simp
        · cases hbe : (td.blobs.getD []).isEmpty with
          | true => simp [hbe] at hB
          | false =>
            simp only [hbe, Bool.false_eq_true, if_false, pathsOf_mkdir,
              List.mem_cons] at hB
            rcases hB with rfl | hB
            · simp
            · rcases pathsOf_subset _ p hB with hw | hm
              · have := (processBlobs_spec client
                  (cur ++ [thread_title td ++ "_attachments"])
                  (td.blobs.getD [])).2.2.2 p hw
                simp at this
                omega
              · rw [(processBlobs_spec client
                  (cur ++ [thread_title td ++ "_attachments"])
                  (td.blobs.getD [])).2.1] at hm
                simp at hm

-- ## Every path touched below a folder lies strictly under its directory

theorem childLoop_paths (client : Client)
    (recurse : String → List String → Nat → M Unit) (cur : List String)
    (depth : Nat) (indent : String) (total : Nat)
    (hrec : ∀ fid d p, p ∈ pathsOf (recurse fid cur d).1 → cur.length < p.length) :
    ∀ cs i p, p ∈ pathsOf (childLoop client recurse cur depth indent total i cs).1 →
      cur.length < p.length := by
  intro cs
  induction cs with
  | nil =>
    intro i p hp
    simp [childLoop, M.pure] at hp
  | cons child rest ih =>
    intro i p hp
    rw [childLoop] at hp
    cases hct : child.thread_id with
    | some tid =>
      have hptp := process_thread_paths client tid cur
      rcases hpt : process_thread client tid cur with ⟨ptt, ptr⟩
      rw [hpt] at hptp
      simp only [hct, hpt, M.tell_bind] at hp
      cases ptr with
      | ok a =>
        simp only [M.pair_ok_bind, M.tell_bind, pathsOf_append, pathsOf_log,
          pathsOf_sleep, List.mem_append] at hp
        rcases hp with hp | hp
        · exact hptp p hp
        · exact ih (i + 1) p hp
      | error e =>
        simp only [M.pair_error_bind, pathsOf_log] at hp
        exact hptp p hp
    | none =>
      cases hcf : child.folder_id with
      | some fid =>
        have hrp := hrec fid (depth + 1)
        rcases hrc : recurse fid cur (depth + 1) with ⟨rt, rr⟩
        rw [hrc] at hrp
        simp only [hct, hcf, hrc] at hp
        cases rr with
        | ok a =>
          simp only [M.pair_ok_bind, M.tell_bind, pathsOf_append,
            pathsOf_sleep, List.mem_append] at hp
          rcases hp with hp | hp
          · exact hrp p hp
          · exact ih (i + 1) p hp
        | error e =>
          simp only [M.pair_error_bind] at hp
          exact hrp p hp
      | none =>
        simp only [hct, hcf, M.pure_bind, M.tell_bind, pathsOf_sleep] at hp
        exact ih (i + 1) p hp

theorem process_folder_paths (client : Client) :
    ∀ fuel fid base depth p,
      p ∈ pathsOf (process_folder client fuel fid base depth).1 →
      base.length < p.length := by
  intro fuel
  induction fuel with
  | zero =>
    intro fid base depth p hp
    simp [process_folder, M.throw] at hp
  | succ n ih =>
    intro fid base depth p hp
    cases hf : client.get_folder fid with
    | error e =>
      simp only [process_folder] at hp
      simp [hf, M.tell] at hp
    | ok fd =>
      cases he : fd.error with
      | some err =>
        simp only [process_folder] at hp
        simp [hf, he, M.tell] at hp
      | none =>
        have hcl := childLoop_paths client (process_folder client n)
          (base ++ [folder_title fd]) depth (pyRepeat "  " depth)
          (fd.children.getD []).length
          (fun fid' d' p' hp' => ih fid' (base ++ [folder_title fd]) d' p' hp')
        rcases hclv : childLoop client (process_folder client n)
            (base ++ [folder_title fd]) depth (pyRepeat "  " depth)
            (fd.children.getD []).length 0 (fd.children.getD []) with ⟨clt, clr⟩
        have hcl0 := hcl (fd.children.getD []) 0
        rw [hclv] at hcl0
        simp only [process_folder, hf, he, M.lift_ok_bind, M.tell_bind, hclv]
          at hp
        have hbase : base.length < (base ++ [folder_title fd]).length := by simp
        cases clr with
        | ok a =>
          simp only [M.pair_ok_bind, M.tell_bind, M.tell, M.tryCatch_pair_ok,
            pathsOf_log, pathsOf_mkdir, pathsOf_append, pathsOf_nil,
            List.append_nil, List.mem_cons, List.mem_append] at hp
          rcases hp with h | h
          · rw [h]; exact hbase
          · exact Nat.lt_trans hbase (hcl0 p h)
        | error e =>
          simp only [M.pair_error_bind, M.tryCatch_pair_error, M.tell,
            pathsOf_log, pathsOf_mkdir, pathsOf_append, pathsOf_nil,
            List.append_nil, List.mem_cons, List.mem_append] at hp
          rcases hp with h | h
          · rw [h]; exact hbase
          · exact Nat.lt_trans hbase (hcl0 p h)

-- ## The directory creations of a successfully fetched folder

theorem process_folder_mkdirs (client : Client) (fuel : Nat) (fid : String)
    (base : List String) (depth : Nat) (fd : FolderData)
    (hf : client.get_folder fid = Except.ok fd) (he : fd.error = none) :
    mkdirPaths (process_folder client (fuel + 1) fid base depth).1 =
      (base ++ [folder_title fd]) ::
        mkdirPaths (childLoop client (process_folder client fuel)
          (base ++ [folder_title fd]) depth (pyRepeat "  " depth)
          (fd.children.getD []).length 0 (fd.children.getD [])).1 := by
  rcases hclv : childLoop client (process_folder client fuel)
      (base ++ [folder_title fd]) depth (pyRepeat "  " depth)
      (fd.children.getD []).length 0 (fd.children.getD []) with ⟨clt, clr⟩
  simp only [process_folder, hf, he, M.lift_ok_bind, M.tell_bind, hclv]
  cases clr with
  | ok a => simp [M.tell]
  | error e => simp [M.tell]

-- ## The attachment segment of a document's trace

theorem blobpart_writes_len (client : Client) (td : ThreadData)
    (cur : List String) :
    ∀ q ∈ writePaths (if (td.blobs.getD []).isEmpty then []
      else Event.mkdir (cur ++ [thread_title td ++ "_attachments"]) ::
        (processBlobs client (cur ++ [thread_title td ++ "_attachments"])
          (td.blobs.getD [])).1),
      q.length = cur.length + 2 := by
  cases hbe : (td.blobs.getD []).isEmpty with
  | true => simp [hbe]
  | false =>
    simp only [hbe, Bool.false_eq_true, if_false, writePaths_mkdir]
    intro q hq
    have := (processBlobs_spec client
      (cur ++ [thread_title td ++ "_attachments"]) (td.blobs.getD [])).2.2.2 q hq
    simpa using this

theorem blobpart_mkdirs (client : Client) (td : ThreadData) (cur : List String) :
    mkdirPaths (if (td.blobs.getD []).isEmpty then []
      else Event.mkdir (cur ++ [thread_title td ++ "_attachments"]) ::
        (processBlobs client (cur ++ [thread_title td ++ "_attachments"])
          (td.blobs.getD [])).1) =
      (if (td.blobs.getD []).isEmpty then []
       else [cur ++ [thread_title td ++ "_attachments"]]) := by
  cases hbe : (td.blobs.getD []).isEmpty with
  | true => simp [hbe]
  | false =>
    simp only [hbe, Bool.false_eq_true, if_false, mkdirPaths_mkdir]
    rw [(processBlobs_spec client
      (cur ++ [thread_title td ++ "_attachments"]) (td.blobs.getD [])).2.1]

-- ## Claim C4, amended

/-- C4 amended: every successfully fetched folder node produces exactly one
    creation of its own directory.  A successfully fetched document node whose
    export request completes produces at most one export file — the `.docx`
    exactly when the status is 200, else the `.html` exactly when truthy
    fallback markup is present, and no file otherwise — plus, if and only if
    its blob list is non-empty, exactly one creation of the
    `<sanitized-title>_attachments` directory. -/
theorem c4_amended (client : Client) :
    (∀ fuel fid base depth fd,
      client.get_folder fid = Except.ok fd → fd.error = none →
      mkdirsAt (base ++ [folder_title fd])
        (process_folder client (fuel + 1) fid base depth).1 = 1) ∧
    (∀ tid cur td resp,
      client.get_thread tid = Except.ok td → td.error = none →
      client.http_get (export_url client tid) = Except.ok resp →
      writesAt (cur ++ [thread_title td ++ ".docx"])
          (process_thread client tid cur).1 =
        (if resp.status_code = 200 then 1 else 0) ∧
      writesAt (cur ++ [thread_title td ++ ".html"])
          (process_thread client tid cur).1 =
        (if resp.status_code = 200 then 0
         else if pyTruthy td.html then 1 else 0) ∧
      mkdirsAt (cur ++ [thread_title td ++ "_attachments"])
          (process_thread client tid cur).1 =
        (if (td.blobs.getD []).isEmpty then 0 else 1)) := by
  constructor
  · intro fuel fid base depth fd hf he
    unfold mkdirsAt
    rw [process_folder_mkdirs client fuel fid base depth fd hf he]
    rw [List.count_cons]
    have hz : (mkdirPaths (childLoop client (process_folder client fuel)
        (base ++ [folder_title fd]) depth (pyRepeat "  " depth)
        (fd.children.getD []).length 0 (fd.children.getD [])).1).count
        (base ++ [folder_title fd]) = 0 := by
      apply List.count_eq_zero.mpr
      intro hm
      have hlt := childLoop_paths client (process_folder client fuel)
        (base ++ [folder_title fd]) depth (pyRepeat "  " depth)
        (fd.children.getD []).length
        (fun fid' d' p' hp' =>
          process_folder_paths client fuel fid' (base ++ [folder_title fd]) d' p' hp')
        (fd.children.getD []) 0 _ (mkdirPaths_subset_pathsOf _ _ hm)
      simp at hlt
    rw [hz]
    simp
  · intro tid cur td resp ht he hr
    rw [process_thread_spec client tid cur td resp ht he hr]
    have hbw := blobpart_writes_len client td cur
    have hbm := blobpart_mkdirs client td cur
    have hdh : (cur ++ [thread_title td ++ ".docx"]) ≠
        (cur ++ [thread_title td ++ ".html"]) :=
      path_last_ne cur _ _ (title_ext_ne _ _ _ (by decide))
    by_cases h200 : resp.status_code = 200
    · refine ⟨?_, ?_, ?_⟩
      · unfold writesAt
        simp only [h200, if_true, List.cons_append, List.nil_append,
          writePaths_write, writePaths_log]
        rw [List.count_cons,
          count_zero_of_lengths _ _ (cur.length + 2) (by simpa [h200] using hbw)
            (by simp)]
        simp
      · unfold writesAt
        simp only [h200, if_true, List.cons_append, List.nil_append,
          writePaths_write, writePaths_log]
        rw [List.count_cons,
          count_zero_of_lengths _ _ (cur.length + 2) (by simpa [h200] using hbw)
            (by simp)]
        simp [hdh]
      · unfold mkdirsAt
        simp only [h200, if_true, List.cons_append, List.nil_append,
          mkdirPaths_write, mkdirPaths_log, mkdirPaths_append]
        rw [show mkdirPaths (if (td.blobs.getD []).isEmpty then []
            else Event.mkdir (cur ++ [thread_title td ++ "_attachments"]) ::
              (processBlobs client (cur ++ [thread_title td ++ "_attachments"])
                (td.blobs.getD [])).1) =
            (if (td.blobs.getD []).isEmpty then []
             else [cur ++ [thread_title td ++ "_attachments"]]) from hbm]
        cases hbe : (td.blobs.getD []).isEmpty <;> simp [hbe]
    · have hwr : writePaths ((match td.html with
             | some content =>
               if content.isEmpty then []
               else
                 [Event.write (cur ++ [thread_title td ++ ".html"]) content,
                  Event.log ("Extracted HTML instead: " ++
                    pathStr (cur ++ [thread_title td ++ ".html"]))]
             | none => []) : List Event) =
          (if pyTruthy td.html then
            [cur ++ [thread_title td ++ ".html"]] else []) := by
        cases hh : td.html with
        | none => simp [pyTruthy]
        | some content =>
          cases hce : content.isEmpty with
          | true => simp [pyTruthy, hce]
          | false => simp [pyTruthy, hce]
      refine ⟨?_, ?_, ?_⟩
      · unfold writesAt
        simp only [h200, if_false, writePaths_append, writePaths_log]
        rw [List.count_append]
        rw [hwr]
        rw [count_zero_of_lengths _ _ (cur.length + 2) hbw (by simp)]
        cases hht : pyTruthy td.html with
        | false => simp [hht]
        | true =>
          simp only [hht, if_true]
          exact List.count_eq_zero.mpr (by simp [hdh])
      · unfold writesAt
        simp only [h200, if_false, writePaths_append, writePaths_log]
        rw [List.count_append]
        rw [hwr]
        rw [count_zero_of_lengths _ _ (cur.length + 2) hbw (by simp)]
        cases hht : pyTruthy td.html <;> simp [hht]
      · unfold mkdirsAt
        simp only [h200, if_false, mkdirPaths_append, mkdirPaths_log]
        rw [List.count_append]
        have hmA : mkdirPaths ((match td.html with
             | some content =>
               if content.isEmpty then []
               else
                 [Event.write (cur ++ [thread_title td ++ ".html"]) content,
                  Event.log ("Extracted HTML instead: " ++
                    pathStr (cur ++ [thread_title td ++ ".html"]))]
             | none => []) : List Event) = [] := by
          cases hh : td.html with
          | none => simp
          | some content =>
            cases hce : content.isEmpty with
            | true => simp [hce]
            | false => simp [hce]
        rw [hmA, hbm]
        cases hbe : (td.blobs.getD []).isEmpty <;> simp [hbe]

/-- Instantiation of `c4_amended`: the demo folder creates exactly one
    directory; the demo document (404 export, truthy markup, two blobs)
    writes one `.html`, no `.docx`, one attachments directory. -/
theorem c4_amended_witness :
    mkdirsAt (["out"] ++ [folder_title ⟨none, some ⟨some "Folder"⟩, some []⟩])
      (process_folder demo_client 1 "F1" ["out"] 0).1 = 1 ∧
    writesAt (["out"] ++ [thread_title okThread ++ ".docx"])
      (process_thread demo_client "T1" ["out"]).1 =
      (if (404 : Nat) = 200 then 1 else 0) :=
  ⟨(c4_amended demo_client).1 0 "F1" ["out"] 0 _ rfl rfl,
   by
    have h := ((c4_amended demo_client).2 "T1" ["out"] okThread
      { status_code := 404, content := "" } rfl rfl rfl).1
    simpa using h⟩

-- ## Claim C5: one throttle sleep per child, regardless of branch

/-- C5: the `time.sleep(0.5)` throttle runs exactly once per child while a
    folder's children are iterated, whatever branch the child takes: a
    document dispatch itself never sleeps, so the loop over `cs` sleeps
    `cs.length` times plus exactly the sleeps of the recursive sub-folder
    dispatches; and the recursion (at any remaining fuel) always returns
    normally, so no iteration is cut short. -/
theorem c5_throttle_per_child (client : Client) :
    (∀ tid cur, sleepCount (process_thread client tid cur).1 = 0) ∧
    (∀ (recurse : String → List String → Nat → M Unit) cur depth indent total,
      (∀ fid d, (recurse fid cur d).2 = Except.ok ()) →
      ∀ cs i, sleepCount (childLoop client recurse cur depth indent total i cs).1 =
        cs.length + ((folder_child_ids cs).map
          (fun fid => sleepCount (recurse fid cur (depth + 1)).1)).sum) ∧
    (∀ fuel fid base depth,
      (process_folder client (fuel + 1) fid base depth).2 = Except.ok ()) := by
  have h1 : ∀ tid cur, sleepCount (process_thread client tid cur).1 = 0 := by
    intro tid cur
    cases ht : client.get_thread tid with
    | error e => unfold process_thread; simp [ht, M.tell]
    | ok td =>
      cases he : td.error with
      | some err => unfold process_thread; simp [ht, he, M.tell]
      | none =>
        cases hr : client.http_get (export_url client tid) with
        | error e => unfold process_thread; simp [ht, he, hr, M.tell]
        | ok resp =>
          rw [process_thread_spec client tid cur td resp ht he hr]
          have hb := (processBlobs_spec client
            (cur ++ [thread_title td ++ "_attachments"]) (td.blobs.getD [])).2.2.1
          by_cases h200 : resp.status_code = 200
          · cases hbe : (td.blobs.getD []).isEmpty <;> simp [h200, hbe, hb]
          · cases hh : td.html with
            | none =>
              cases hbe : (td.blobs.getD []).isEmpty <;>
                simp [h200, hh, hbe, hb]
            | some content =>
              cases hce : content.isEmpty with
              | true =>
                cases hbe : (td.blobs.getD []).isEmpty <;>
                  simp [h200, hh, hce, hbe, hb]
              | false =>
                cases hbe : (td.blobs.getD []).isEmpty <;>
                  simp [h200, hh, hce, hbe, hb]
  refine ⟨h1, ?_, process_folder_snd client⟩
  intro recurse cur depth indent total hrec cs
  induction cs with
  | nil => intro i; simp [childLoop, M.pure, folder_child_ids]
  | cons child rest ih =>
    intro i
    rw [childLoop]
    cases hct : child.thread_id with
    | some tid =>
      rcases hpt : process_thread client tid cur with ⟨ptt, ptr⟩
      have hsnd := process_thread_snd client tid cur
      rw [hpt] at hsnd
      simp only at hsnd
      subst hsnd
      have hps := h1 tid cur
      rw [hpt] at hps
      simp only at hps
      have hloop := ih (i + 1)
      simp only [hct, hpt, M.tell_bind, M.pair_ok_bind, List.cons_append,
        sleepCount_append, sleepCount_log, sleepCount_sleep] at hloop ⊢
      simp only [folder_child_ids, List.filterMap_cons, hct, List.length_cons]
        at hloop ⊢
      omega
    | none =>
      cases hcf : child.folder_id with
      | some fid =>
        rcases hrc : recurse fid cur (depth + 1) with ⟨rt, rr⟩
        have hok := hrec fid (depth + 1)
        rw [hrc] at hok
        simp only at hok
        subst hok
        have hloop := ih (i + 1)
        simp only [hct, hcf, hrc, M.tell_bind, M.pair_ok_bind, List.cons_append,
          sleepCount_append, sleepCount_sleep] at hloop ⊢
        simp only [folder_child_ids, List.filterMap_cons, hct, hcf, hrc,
          List.map_cons, List.sum_cons, List.length_cons] at hloop ⊢
        omega
      | none =>
        have hloop := ih (i + 1)
        simp only [hct, hcf, M.pure_bind, M.tell_bind, sleepCount_sleep] at hloop ⊢
        simp only [folder_child_ids, List.filterMap_cons, hct, hcf,
          List.length_cons] at hloop ⊢
        omega

/-- Instantiation of `c5_throttle_per_child`: a two-child loop (one document,
    one unrecognized entry) sleeps exactly twice. -/
theorem c5_throttle_per_child_witness :
    sleepCount (childLoop demo_client
      (fun (_ : String) (_ : List String) (_ : Nat) => M.pure ()) ["out"] 0 "" 2 0
      [⟨some "T1", none⟩, ⟨none, none⟩]).1 =
      ([⟨some "T1", none⟩, ⟨none, none⟩] : List Child).length +
        ((folder_child_ids [⟨some "T1", none⟩, ⟨none, none⟩]).map
          (fun _ => sleepCount (M.pure () : M Unit).1)).sum :=
  (c5_throttle_per_child demo_client).2.1
    (fun (_ : String) (_ : List String) (_ : Nat) => M.pure ()) ["out"] 0 "" 2
    (fun _ _ => rfl) [⟨some "T1", none⟩, ⟨none, none⟩] 0

-- ## Claim C10: attachments directory precedes downloads; url-less blobs skip

/-- C10: when the fetched metadata carries a non-empty blob list (and the
    export request itself completes), the `<sanitized-title>_attachments`
    directory creation precedes the whole blob loop — every write before it
    is an export file one component above, and every attachment write lies
    one component below it — even when every blob lacks a `'url'` or every
    download fails; a blob with a falsy `'url'` contributes no event at all;
    and a download either succeeds writing exactly its target file or fails
    writing nothing. -/
theorem c10_attachments_dir (client : Client) (tid : String) (cur : List String)
    (td : ThreadData) (resp : Resp)
    (ht : client.get_thread tid = Except.ok td) (he : td.error = none)
    (hr : client.http_get (export_url client tid) = Except.ok resp) :
    (td.blobs.getD [] ≠ [] →
      ∃ pre, (process_thread client tid cur).1 =
          pre ++ Event.mkdir (cur ++ [thread_title td ++ "_attachments"]) ::
            (processBlobs client (cur ++ [thread_title td ++ "_attachments"])
              (td.blobs.getD [])).1 ∧
        (∀ p ∈ writePaths pre, p.length = cur.length + 1) ∧
        (∀ p ∈ writePaths (processBlobs client
            (cur ++ [thread_title td ++ "_attachments"]) (td.blobs.getD [])).1,
          p.length = cur.length + 2)) ∧
    (∀ ap blob rest, pyTruthy blob.url = false →
      processBlobs client ap (blob :: rest) = processBlobs client ap rest) ∧
    (∀ url p,
      (∃ r, client.http_get url = Except.ok r ∧
        ¬(400 ≤ r.status_code ∧ r.status_code < 600) ∧
        download_blob client url p = ([Event.write p r.content], Except.ok true)) ∨
      (∃ msg, download_blob client url p = ([Event.log msg], Except.ok false))) := by
  refine ⟨?_, ?_, fun url p => download_blob_spec client url p⟩
  · intro hne
    have hbe : (td.blobs.getD []).isEmpty = false := by
      cases hbl : td.blobs.getD [] with
      | nil => exact absurd hbl hne
      | cons b bs => rfl
    rw [process_thread_spec client tid cur td resp ht he hr]
    refine ⟨(if resp.status_code = 200 then
        [Event.write (cur ++ [thread_title td ++ ".docx"]) resp.content,
         Event.log ("Extracted DOCX: " ++ pathStr (cur ++ [thread_title td ++ ".docx"]))]
      else
        Event.log ("Failed to download DOCX for " ++ thread_title td ++ ": " ++
            toString resp.status_code) ::
          (match td.html with
           | some content =>
             if content.isEmpty then []
             else
               [Event.write (cur ++ [thread_title td ++ ".html"]) content,
                Event.log ("Extracted HTML instead: " ++
                  pathStr (cur ++ [thread_title td ++ ".html"]))]
           | none => [])), ?_, ?_, ?_⟩
    · simp [hbe]
    · intro p hp
      by_cases h200 : resp.status_code = 200
      · simp [h200] at hp
        subst hp
        simp
      · simp only [h200, if_false, writePaths_log] at hp
        cases hh : td.html with
        | none => simp [hh] at hp
        | some content =>
          cases hce : content.isEmpty with
          | true => simp [hh, hce] at hp
          | false =>
            simp [hh, hce] at hp
            subst hp
            simp
    · intro p hp
      have := (processBlobs_spec client
        (cur ++ [thread_title td ++ "_attachments"]) (td.blobs.getD [])).2.2.2 p hp
      simpa using this
  · intro ap blob rest hfalse
    conv_lhs => rw [processBlobs]
    cases hu : blob.url with
    | none => simp
    | some u =>
      rw [hu] at hfalse
      simp only [pyTruthy, Bool.not_eq_false'] at hfalse
      simp [hfalse]

/-- Instantiation of `c10_attachments_dir` at `c10_client`: both blobs fail
    (one has no url, the download of the other answers 500), yet the
    attachments directory creation precedes the loop. -/
theorem c10_attachments_dir_witness :
    ∃ pre, (process_thread c10_client "T1" ["out"]).1 =
        pre ++ Event.mkdir (["out"] ++ [thread_title okThread ++ "_attachments"]) ::
          (processBlobs c10_client
            (["out"] ++ [thread_title okThread ++ "_attachments"])
            (okThread.blobs.getD [])).1 ∧
      (∀ p ∈ writePaths pre, p.length = (["out"] : List String).length + 1) ∧
      (∀ p ∈ writePaths (processBlobs c10_client
          (["out"] ++ [thread_title okThread ++ "_attachments"])
          (okThread.blobs.getD [])).1,
        p.length = (["out"] : List String).length + 2) :=
  (c10_attachments_dir c10_client "T1" ["out"] okThread ⟨500, ""⟩
    rfl rfl rfl).1 (by decide)

-- ## Replaying traces against a filesystem

theorem FS.ext_of (a b : FS) (hf : ∀ q, a.files q = b.files q)
    (hd : ∀ q, a.dirs q = b.dirs q) : a = b := by
  cases a
  cases b
  simp only [FS.mk.injEq]
  exact ⟨funext hf, funext hd⟩

theorem applyTrace_files (tr : List Event) : ∀ (fs : FS) (q : List String),
    (applyTrace fs tr).files q =
      match lastWrite tr q with
      | some c => some c
      | none => fs.files q := by
  induction tr with
  | nil => intro fs q; simp [applyTrace, lastWrite]
  | cons e tr ih =>
    intro fs q
    show (applyTrace (applyEvent fs e) tr).files q = _
    rw [ih]
    cases hl : lastWrite tr q with
    | some c => simp [lastWrite, hl]
    | none =>
      cases e with
      | write p c =>
        simp only [lastWrite, hl, applyEvent]
        by_cases hqp : q = p <;> simp [hqp]
      | mkdir p => simp [lastWrite, hl, applyEvent]
      | sleep => simp [lastWrite, hl, applyEvent]
      | log m => simp [lastWrite, hl, applyEvent]

theorem applyTrace_dirs (tr : List Event) : ∀ (fs : FS) (q : List String),
    (applyTrace fs tr).dirs q = (mkdirHit tr q || fs.dirs q) := by
  induction tr with
  | nil => intro fs q; simp [applyTrace, mkdirHit]
  | cons e tr ih =>
    intro fs q
    show (applyTrace (applyEvent fs e) tr).dirs q = _
    rw [ih]
    cases e with
    | mkdir p =>
      simp only [mkdirHit, applyEvent]
      by_cases hqp : q = p <;> simp [hqp, Bool.or_comm, Bool.or_left_comm]
    | write p c => simp [mkdirHit, applyEvent]
    | sleep => simp [mkdirHit, applyEvent]
    | log m => simp [mkdirHit, applyEvent]

theorem applyTrace_idem (tr : List Event) (fs : FS) :
    applyTrace (applyTrace fs tr) tr = applyTrace fs tr := by
  apply FS.ext_of
  · intro q
    rw [applyTrace_files tr (applyTrace fs tr) q]
    cases hl : lastWrite tr q with
    | some c =>
      simp only
      rw [applyTrace_files tr fs q, hl]
    | none => simp only
  · intro q
    rw [applyTrace_dirs tr (applyTrace fs tr) q, applyTrace_dirs tr fs q]
    cases mkdirHit tr q <;> simp

-- ## Claim C8: a second identical run changes nothing on disk

/-- C8: replaying the trace of a full folder walk a second time over the
    filesystem state the first replay produced changes nothing: every write
    overwrites the same path with the same bytes and directory creation is
    create-if-absent, so running the export twice against an unchanged remote
    tree yields byte-identical file sets (the trace is a pure function of the
    client, so the second run's trace equals the first's). -/
theorem c8_idempotent_replay (client : Client) (fuel : Nat) (fid : String)
    (base : List String) (depth : Nat) (fs : FS) :
    applyTrace (applyTrace fs (process_folder client fuel fid base depth).1)
        (process_folder client fuel fid base depth).1 =
      applyTrace fs (process_folder client fuel fid base depth).1 :=
  applyTrace_idem _ _
